import Mathlib

/-!
Shallow embedding of the OPD-Flow-Engine slot-allocation core
(`src/services/token.service.ts`, `src/models/slot.model.ts`,
`src/models/token.model.ts`, `src/controllers/tokenController.ts`).

Ids are modelled as naturals (Mongo ObjectIds), instants as integers
(millisecond timestamps).  Mongoose `save()` runs the schema validators on
modified paths; a validator failure is a `ValidationError`, which the
service's catch block converts to a generic `AppError` with status 500
("Failed to book token" / "Failed to cancel token").  A thrown error inside
the transaction aborts it, so an error result leaves the database unchanged;
this is modelled by `Except`: the `.error` branch carries no state.
Log statements (`logger.info` / `logger.warn`) are side-effect free and are
omitted.
-/

/-- TokenType enum from `token.model.ts`. -/
inductive TokenType where
  | ONLINE
  | WALK_IN
  | EMERGENCY
  | FOLLOW_UP
deriving DecidableEq, Repr

/-- TokenStatus enum from `token.model.ts`. -/
inductive TokenStatus where
  | BOOKED
  | CANCELLED
  | COMPLETED
  | NO_SHOW
deriving DecidableEq, Repr

/-- Doctor document (`doctor.model.ts`); only the fields the booking core
reads are modelled. -/
structure Doctor where
  id : Nat
  name : String
deriving DecidableEq, Repr

/-- Slot document (`slot.model.ts`): a `[startTime, endTime)` window for one
doctor with a capacity and a current occupancy counter. -/
structure Slot where
  id : Nat
  doctorId : Nat
  startTime : Int
  endTime : Int
  maxCapacity : Nat
  currentCount : Nat
deriving DecidableEq, Repr

/-- Token document (`token.model.ts`): one patient's claim on one slot. -/
structure Token where
  id : Nat
  slotId : Nat
  patientName : String
  type : TokenType
  status : TokenStatus
  requestTime : Int
deriving DecidableEq, Repr

/-- The persistent state visible to the service: the three collections plus
a fresh-id source for new Token documents. -/
structure DB where
  doctors : List Doctor
  slots : List Slot
  tokens : List Token
  nextTokenId : Nat
deriving DecidableEq, Repr

/-- `AppError` from `middleware/errorHandler`: a message plus an HTTP status
code; this is the entire information content an error surfaces to callers. -/
structure AppError where
  message : String
  statusCode : Nat
deriving DecidableEq, Repr

/-- Equality of call results is decidable (needed to evaluate the embedded
operations on concrete inputs). -/
instance {ε α : Type} [DecidableEq ε] [DecidableEq α] : DecidableEq (Except ε α)
  | .ok a, .ok b =>
    if h : a = b then .isTrue (by rw [h]) else .isFalse (by intro hc; cases hc; exact h rfl)
  | .ok _, .error _ => .isFalse (by intro hc; cases hc)
  | .error _, .ok _ => .isFalse (by intro hc; cases hc)
  | .error e, .error f =>
    if h : e = f then .isTrue (by rw [h]) else .isFalse (by intro hc; cases hc; exact h rfl)

/-- JavaScript `String.prototype.trim` (also mongoose `trim: true`): strip
whitespace from both ends.  (`String.trim` of the Lean core library is not
kernel-reducible, so the equivalent is defined structurally.) -/
def strTrim (s : String) : String :=
  ⟨((s.data.dropWhile Char.isWhitespace).reverse.dropWhile Char.isWhitespace).reverse⟩

/-- `throw new AppError('Missing required fields', 400)`. -/
def missingFieldsError : AppError := ⟨"Missing required fields", 400⟩

/-- `throw new AppError('Doctor not found', 404)`. -/
def doctorNotFoundError : AppError := ⟨"Doctor not found", 404⟩

/-- `throw new AppError('No slot found for doctor ... at ...', 404)`; the
locale-formatted time of the interpolated message is elided. -/
def slotNotFoundError (doctorName : String) : AppError :=
  ⟨"No slot found for doctor " ++ doctorName, 404⟩

/-- `throw new AppError('Slot is full. Current capacity: c/m', 409)`. -/
def slotFullError (c m : Nat) : AppError :=
  ⟨"Slot is full. Current capacity: " ++ toString c ++ "/" ++ toString m, 409⟩

/-- `throw new AppError('Failed to book token', 500)` — the generic error the
catch block produces for any non-`AppError` failure inside the booking
transaction (in particular mongoose validation errors). -/
def bookFailedError : AppError := ⟨"Failed to book token", 500⟩

/-- `throw new AppError('Token not found', 404)`. -/
def tokenNotFoundError : AppError := ⟨"Token not found", 404⟩

/-- `throw new AppError('Token is already cancelled', 400)`. -/
def alreadyCancelledError : AppError := ⟨"Token is already cancelled", 400⟩

/-- `throw new AppError('Cannot cancel a completed token', 400)`. -/
def cannotCancelCompletedError : AppError := ⟨"Cannot cancel a completed token", 400⟩

/-- `throw new AppError('Associated slot not found', 404)`. -/
def associatedSlotNotFoundError : AppError := ⟨"Associated slot not found", 404⟩

/-- `throw new AppError('Failed to cancel token', 500)`. -/
def cancelFailedError : AppError := ⟨"Failed to cancel token", 500⟩

/-- SlotSchema virtual `isAvailable` (`slot.model.ts`):
`this.currentCount < this.maxCapacity`. -/
def Slot.isAvailable (s : Slot) : Bool :=
  decide (s.currentCount < s.maxCapacity)

/-- SlotSchema virtual `remainingSlots` (`slot.model.ts`):
`this.maxCapacity - this.currentCount` — note: no flooring at zero. -/
def Slot.remainingSlots (s : Slot) : Int :=
  (s.maxCapacity : Int) - (s.currentCount : Int)

/-- SlotSchema `currentCount` path validators (`min: 0` is automatic for a
natural; the custom validator is `value <= this.maxCapacity`, message
'Current count cannot exceed max capacity').  Run on every `slot.save()`
that modified `currentCount`. -/
def slotCountValid (s : Slot) : Bool :=
  decide (s.currentCount ≤ s.maxCapacity)

/-- TokenSchema `patientName` validators (`required`, `minlength: 2`,
`maxlength: 100`), applied to the trimmed name on `token.save()`. -/
def tokenNameValid (name : String) : Bool :=
  decide (2 ≤ name.length) && decide (name.length ≤ 100)

/-- The `Slot.findOne` filter of `bookToken`:
`doctorId` matches, `startTime: { $lte: t }`, `endTime: { $gt: t }` —
half-open containment `startTime ≤ t < endTime`. -/
def containsInstant (s : Slot) (docId : Nat) (t : Int) : Bool :=
  s.doctorId == docId && decide (s.startTime ≤ t) && decide (t < s.endTime)

/-- `Slot.findOne({doctorId, startTime: {$lte}, endTime: {$gt}})`: the first
slot of the doctor containing the instant. -/
def findContainingSlot (slots : List Slot) (docId : Nat) (t : Int) : Option Slot :=
  slots.find? (fun s => containsInstant s docId t)

/-- `Doctor.findById`. -/
def doctorById (db : DB) (i : Nat) : Option Doctor :=
  db.doctors.find? (fun d => d.id == i)

/-- `Token.findById`. -/
def tokenById (db : DB) (i : Nat) : Option Token :=
  db.tokens.find? (fun t => t.id == i)

/-- `Slot.findById`. -/
def slotById (db : DB) (i : Nat) : Option Slot :=
  db.slots.find? (fun s => s.id == i)

/-- Persisting a modified Slot document (`slot.save()`): the stored document
with the same `_id` is replaced. -/
def updateSlotList (slots : List Slot) (s' : Slot) : List Slot :=
  slots.map (fun s => if s.id == s'.id then s' else s)

/-- Persisting a modified Token document (`token.save()`). -/
def updateTokenList (tokens : List Token) (t' : Token) : List Token :=
  tokens.map (fun t => if t.id == t'.id then t' else t)

/-- `BookTokenRequest` from `token.service.ts`. -/
structure BookTokenRequest where
  doctorId : Nat
  slotTime : Int
  patientName : String
  type : TokenType
deriving DecidableEq, Repr

/-- The `token` part of `BookTokenResponse`. -/
structure TokenView where
  id : Nat
  slotId : Nat
  patientName : String
  type : TokenType
  status : TokenStatus
  requestTime : Int
deriving DecidableEq, Repr

/-- The `slot` part of `BookTokenResponse`; `remainingSlots` is
`Math.max(0, slot.maxCapacity - slot.currentCount)` computed on the
post-increment slot. -/
structure SlotView where
  doctorId : Nat
  startTime : Int
  endTime : Int
  currentCount : Nat
  maxCapacity : Nat
  remainingSlots : Int
deriving DecidableEq, Repr

/-- `BookTokenResponse` from `token.service.ts`. -/
structure BookTokenResponse where
  success : Bool
  message : String
  token : TokenView
  slot : SlotView
deriving DecidableEq, Repr

/-- The `token` part of `CancelTokenResponse`. -/
structure CancelView where
  id : Nat
  status : TokenStatus
deriving DecidableEq, Repr

/-- `CancelTokenResponse` from `token.service.ts`. -/
structure CancelTokenResponse where
  success : Bool
  message : String
  token : CancelView
deriving DecidableEq, Repr

/-- `TokenService.bookToken`.  Follows the source line by line: missing-field
check; doctor lookup; `findOne` slot lookup; capacity check
(`isSlotFull && !isEmergency` rejects with 409); Token creation with trimmed
patient name, status `BOOKED`, `requestTime = now`; `token.save()` running
the TokenSchema validators; `currentCount` increment; `slot.save()` running
the SlotSchema validators.  A validation failure aborts the transaction and
surfaces the generic 500 `bookFailedError`.  The `.error` branch returns no
state: the transaction was aborted, so the caller's database is unchanged. -/
def bookToken (db : DB) (r : BookTokenRequest) (now : Int) :
    Except AppError (BookTokenResponse × DB) :=
  if r.patientName = "" then
    .error missingFieldsError
  else
    match doctorById db r.doctorId with
    | none => .error doctorNotFoundError
    | some doctor =>
      match findContainingSlot db.slots r.doctorId r.slotTime with
      | none => .error (slotNotFoundError doctor.name)
      | some slot =>
        if slot.maxCapacity ≤ slot.currentCount ∧ r.type ≠ TokenType.EMERGENCY then
          .error (slotFullError slot.currentCount slot.maxCapacity)
        else
          let token : Token :=
            { id := db.nextTokenId
              slotId := slot.id
              patientName := strTrim r.patientName
              type := r.type
              status := TokenStatus.BOOKED
              requestTime := now }
          if tokenNameValid token.patientName = false then
            .error bookFailedError
          else
            let slot' : Slot := { slot with currentCount := slot.currentCount + 1 }
            if slotCountValid slot' = false then
              .error bookFailedError
            else
              .ok
                ({ success := true
                   message :=
                     if r.type = TokenType.EMERGENCY ∧ slot.maxCapacity ≤ slot.currentCount then
                       "Emergency token booked (exceeding normal capacity)"
                     else
                       "Token booked successfully"
                   token :=
                     { id := token.id
                       slotId := slot'.id
                       patientName := token.patientName
                       type := token.type
                       status := token.status
                       requestTime := token.requestTime }
                   slot :=
                     { doctorId := slot'.doctorId
                       startTime := slot'.startTime
                       endTime := slot'.endTime
                       currentCount := slot'.currentCount
                       maxCapacity := slot'.maxCapacity
                       remainingSlots :=
                         max 0 ((slot'.maxCapacity : Int) - (slot'.currentCount : Int)) } },
                 { db with
                     tokens := db.tokens ++ [token]
                     slots := updateSlotList db.slots slot'
                     nextTokenId := db.nextTokenId + 1 })

/-- The state after a `bookToken` call: the committed state on success, the
caller's unchanged state after an abort. -/
def bookEffect (db : DB) (r : BookTokenRequest) (now : Int) : DB :=
  match bookToken db r now with
  | .ok (_, db') => db'
  | .error _ => db

/-- `TokenService.cancelToken`.  Token lookup; terminal-status checks
(`CANCELLED` ⇒ 400, `COMPLETED` ⇒ 400); status transition to `CANCELLED`
persisted by `token.save()`; slot lookup by `token.slotId`; guarded
decrement (`if (slot.currentCount > 0)`) persisted by `slot.save()` running
the `currentCount` validators. -/
def cancelToken (db : DB) (tokenId : Nat) :
    Except AppError (CancelTokenResponse × DB) :=
  match tokenById db tokenId with
  | none => .error tokenNotFoundError
  | some token =>
    if token.status = TokenStatus.CANCELLED then
      .error alreadyCancelledError
    else if token.status = TokenStatus.COMPLETED then
      .error cannotCancelCompletedError
    else
      let token' : Token := { token with status := TokenStatus.CANCELLED }
      match slotById db token.slotId with
      | none => .error associatedSlotNotFoundError
      | some slot =>
        if 0 < slot.currentCount then
          let slot' : Slot := { slot with currentCount := slot.currentCount - 1 }
          if slotCountValid slot' = false then
            .error cancelFailedError
          else
            .ok
              ({ success := true
                 message := "Token cancelled successfully"
                 token := { id := token'.id, status := token'.status } },
               { db with
                   tokens := updateTokenList db.tokens token'
                   slots := updateSlotList db.slots slot' })
        else
          .ok
            ({ success := true
               message := "Token cancelled successfully"
               token := { id := token'.id, status := token'.status } },
             { db with tokens := updateTokenList db.tokens token' })

/-- The state after a `cancelToken` call (committed on success, unchanged on
abort). -/
def cancelEffect (db : DB) (tokenId : Nat) : DB :=
  match cancelToken db tokenId with
  | .ok (_, db') => db'
  | .error _ => db

/-!  Query surface (`tokenController.ts`, `getDoctorSlots`). -/

/-- One element of the `slotsWithAvailability` array built by
`TokenController.getDoctorSlots`. -/
structure SlotAvailabilityView where
  id : Nat
  doctorId : Nat
  startTime : Int
  endTime : Int
  maxCapacity : Nat
  currentCount : Nat
  remainingSlots : Int
  isAvailable : Bool
  status : String
deriving DecidableEq, Repr

/-- The per-slot mapping of `getDoctorSlots`:
`remainingSlots: Math.max(0, slot.maxCapacity - slot.currentCount)`,
`isAvailable: slot.currentCount < slot.maxCapacity`,
`status: currentCount >= maxCapacity ? 'FULL' : 'AVAILABLE'`. -/
def slotWithAvailability (s : Slot) : SlotAvailabilityView :=
  { id := s.id
    doctorId := s.doctorId
    startTime := s.startTime
    endTime := s.endTime
    maxCapacity := s.maxCapacity
    currentCount := s.currentCount
    remainingSlots := max 0 ((s.maxCapacity : Int) - (s.currentCount : Int))
    isAvailable := decide (s.currentCount < s.maxCapacity)
    status := if s.maxCapacity ≤ s.currentCount then "FULL" else "AVAILABLE" }

/-- `TokenController.getDoctorSlots`: all slots of the doctor, each mapped
through `slotWithAvailability`.  The `sort({ startTime: 1 })` only permutes
the list and is irrelevant to the per-slot values, so it is omitted. -/
def getDoctorSlots (db : DB) (docId : Nat) : List SlotAvailabilityView :=
  (db.slots.filter (fun s => s.doctorId == docId)).map slotWithAvailability

/-- The `slot` snapshot of a successful `bookToken` response, as a function
of the post-increment slot (mirrors the record built at the end of
`bookToken`). -/
def bookResponseSlotView (s : Slot) : SlotView :=
  { doctorId := s.doctorId
    startTime := s.startTime
    endTime := s.endTime
    currentCount := s.currentCount
    maxCapacity := s.maxCapacity
    remainingSlots := max 0 ((s.maxCapacity : Int) - (s.currentCount : Int)) }

/-- Modelled from the spec (§4.1): the derived value the spec prescribes for
every read-only view, `remainingCapacity = max(0, maxCapacity -
currentOccupancy)`.  Used only to compare the code's three views against the
spec's formula. -/
def specRemainingCapacity (s : Slot) : Int :=
  max 0 ((s.maxCapacity : Int) - (s.currentCount : Int))

/-- Modelled from the spec (§4.1): `isAvailable = currentOccupancy <
maxCapacity`. -/
def specIsAvailable (s : Slot) : Bool :=
  decide (s.currentCount < s.maxCapacity)

/-!  Error taxonomy (spec §7) and how the code surfaces each outcome. -/

/-- The spec's error taxonomy (§7). -/
inductive Outcome where
  | SlotNotFound
  | SlotFull
  | BookingNotFound
  | AlreadyCancelled
  | CannotCancelCompleted
  | TransactionFailed
deriving DecidableEq, Repr

/-- The `AppError` the service surfaces for each taxonomy outcome (the
dynamic message parts are instantiated arbitrarily; the status code does not
depend on them). -/
def surfacedError : Outcome → AppError
  | .SlotNotFound => slotNotFoundError ""
  | .SlotFull => slotFullError 0 0
  | .BookingNotFound => tokenNotFoundError
  | .AlreadyCancelled => alreadyCancelledError
  | .CannotCancelCompleted => cannotCancelCompletedError
  | .TransactionFailed => bookFailedError

/-- The status code a caller can branch on for each taxonomy outcome —
everything an `AppError` carries apart from its message text. -/
def outcomeStatusCode (o : Outcome) : Nat :=
  (surfacedError o).statusCode

/-!  State predicates. -/

/-- Number of tokens of a slot whose status is `BOOKED` — the spec's
`count(bookings with status=booked referencing this slot)`. -/
def bookedCount (tokens : List Token) (slotId : Nat) : Nat :=
  (tokens.filter (fun t => t.slotId == slotId && t.status == TokenStatus.BOOKED)).length

/-- The core consistency invariant (spec §8): every slot's `currentCount`
equals the number of `BOOKED` tokens referencing it. -/
def Consistent (db : DB) : Prop :=
  ∀ s ∈ db.slots, s.currentCount = bookedCount db.tokens s.id

/-- Token `_id`s are pairwise distinct (Mongo guarantees this for stored
documents). -/
def tokenIdsNodup (db : DB) : Prop :=
  (db.tokens.map Token.id).Nodup

/-- Slot `_id`s are pairwise distinct. -/
def slotIdsNodup (db : DB) : Prop :=
  (db.slots.map Slot.id).Nodup

/-- The id generator is ahead of every stored token id, so a freshly created
token id collides with no stored document. -/
def freshTokenIds (db : DB) : Prop :=
  ∀ t ∈ db.tokens, t.id < db.nextTokenId

/-- No token carries the `NO_SHOW` status (nothing in the booking or
cancellation path ever produces it). -/
def noNoShow (db : DB) : Prop :=
  ∀ t ∈ db.tokens, t.status ≠ TokenStatus.NO_SHOW

/-- The capacity bound the SlotSchema validators enforce on every persisted
slot: `0 ≤ currentCount ≤ maxCapacity` (the lower bound is inherent in the
natural-number representation). -/
def capacityInvariant (db : DB) : Prop :=
  ∀ s ∈ db.slots, s.currentCount ≤ s.maxCapacity

/-- Sequential execution of a batch of `book` calls, counting successes and
`SlotFull` (409) rejections.  Each call is one atomic storage transaction
(the mongoose session in `bookToken`), so a concurrent execution is, up to
the storage layer's serialization, some order of these calls; the order is
the list order, and the surrounding theorems quantify over all lists. -/
def runBooks (db : DB) (rs : List BookTokenRequest) (now : Int) : DB × Nat × Nat :=
  match rs with
  | [] => (db, 0, 0)
  | r :: rest =>
    match bookToken db r now with
    | .ok (_, db') =>
      let out := runBooks db' rest now
      (out.1, out.2.1 + 1, out.2.2)
    | .error e =>
      let out := runBooks db rest now
      if e.statusCode = 409 then (out.1, out.2.1, out.2.2 + 1) else out

/-- `cancelToken` succeeded (committed). -/
def cancelSucceeds (db : DB) (i : Nat) : Bool :=
  match cancelToken db i with
  | .ok _ => true
  | .error _ => false

/-- The slot a token references, as stored. -/
def slotOfToken (db : DB) (i : Nat) : Option Slot :=
  (tokenById db i).bind (fun t => slotById db t.slotId)

/-!  Concrete fixtures used by witnesses and counterexamples. -/

/-- A provider. -/
def exDoctor : Doctor := ⟨1, "Dr. Smith"⟩

/-- A slot at full capacity (`maxCapacity = 10`, `currentCount = 10`). -/
def fullSlot : Slot := ⟨1, 1, 0, 60, 10, 10⟩

/-- A database with one doctor and one full slot. -/
def fullDB : DB := ⟨[exDoctor], [fullSlot], [], 1⟩

/-- An emergency booking request aimed inside `fullSlot`'s window. -/
def emergencyReq : BookTokenRequest := ⟨1, 30, "Alice", TokenType.EMERGENCY⟩

/-- A walk-in booking request aimed inside the example slot window. -/
def walkInReq : BookTokenRequest := ⟨1, 30, "Bob", TokenType.WALK_IN⟩

/-- A request whose instant (100) lies in no slot of the example doctor. -/
def lateReq : BookTokenRequest := ⟨1, 100, "Carol", TokenType.WALK_IN⟩

/-- Shorthand for an example token: id `i`, slot 1, status `st`. -/
def exToken (i : Nat) (st : TokenStatus) : Token :=
  ⟨i, 1, "Patient", TokenType.WALK_IN, st, 0⟩

/-- A database with one slot (capacity 10, occupancy 3) and three `BOOKED`
tokens — a consistent, well-formed state with room to book. -/
def openDB : DB :=
  ⟨[exDoctor], [⟨1, 1, 0, 60, 10, 3⟩],
   [exToken 1 TokenStatus.BOOKED, exToken 2 TokenStatus.BOOKED, exToken 3 TokenStatus.BOOKED], 4⟩

/-- A consistent database containing a `NO_SHOW` token: occupancy 1 matches
the single `BOOKED` token; token 2 is `NO_SHOW`. -/
def noShowDB : DB :=
  ⟨[exDoctor], [⟨1, 1, 0, 60, 10, 1⟩],
   [exToken 1 TokenStatus.BOOKED, exToken 2 TokenStatus.NO_SHOW], 3⟩

/-- A database exercising every cancellation failure: token 1 is already
`CANCELLED`, token 2 is `COMPLETED`, token 3 is `BOOKED` (slot occupancy 1),
and id 99 does not exist. -/
def cancelFixtureDB : DB :=
  ⟨[exDoctor], [⟨1, 1, 0, 60, 10, 1⟩],
   [exToken 1 TokenStatus.CANCELLED, exToken 2 TokenStatus.COMPLETED,
    exToken 3 TokenStatus.BOOKED], 4⟩

/-- A slot above capacity (occupancy 11 of 10) — exactly the transient state
the spec's override rule describes. -/
def overSlot : Slot := ⟨1, 1, 0, 60, 10, 11⟩

/-- A database with remaining capacity 1 (capacity 2, occupancy 1). -/
def nearFullDB : DB := ⟨[exDoctor], [⟨1, 1, 0, 60, 2, 1⟩], [exToken 1 TokenStatus.BOOKED], 2⟩

/-- The exact response `bookToken openDB walkInReq 0` returns. -/
def exBookResp : BookTokenResponse :=
  ⟨true, "Token booked successfully",
   ⟨4, 1, "Bob", TokenType.WALK_IN, TokenStatus.BOOKED, 0⟩,
   ⟨1, 0, 60, 4, 10, 6⟩⟩

/-- The exact committed state `bookToken openDB walkInReq 0` produces. -/
def exBookedDB : DB :=
  ⟨[exDoctor], [⟨1, 1, 0, 60, 10, 4⟩],
   [exToken 1 TokenStatus.BOOKED, exToken 2 TokenStatus.BOOKED, exToken 3 TokenStatus.BOOKED,
    ⟨4, 1, "Bob", TokenType.WALK_IN, TokenStatus.BOOKED, 0⟩], 5⟩

/-!  Decidability of the state predicates (they are bounded quantifications
over the stored collections). -/

instance (db : DB) : Decidable (Consistent db) :=
  inferInstanceAs (Decidable (∀ s ∈ db.slots, s.currentCount = bookedCount db.tokens s.id))

instance (db : DB) : Decidable (tokenIdsNodup db) :=
  inferInstanceAs (Decidable ((db.tokens.map Token.id).Nodup))

instance (db : DB) : Decidable (slotIdsNodup db) :=
  inferInstanceAs (Decidable ((db.slots.map Slot.id).Nodup))

instance (db : DB) : Decidable (freshTokenIds db) :=
  inferInstanceAs (Decidable (∀ t ∈ db.tokens, t.id < db.nextTokenId))

instance (db : DB) : Decidable (noNoShow db) :=
  inferInstanceAs (Decidable (∀ t ∈ db.tokens, t.status ≠ TokenStatus.NO_SHOW))

instance (db : DB) : Decidable (capacityInvariant db) :=
  inferInstanceAs (Decidable (∀ s ∈ db.slots, s.currentCount ≤ s.maxCapacity))

/-!  Generic lemmas about save-by-id updates (`updateSlotList` /
`updateTokenList` are both `map` of an id-guarded replacement). -/

lemma update_by_id_eq_self {α : Type} (idf : α → Nat) (a : α) (l : List α)
    (h : ∀ x ∈ l, idf x ≠ idf a) :
    (l.map fun x => if idf x == idf a then a else x) = l := by
  induction l with
  | nil => rfl
  | cons b t ih =>
    simp only [List.map_cons]
    rw [if_neg (by simp only [beq_iff_eq]; exact h b (List.mem_cons_self b t)),
      ih (fun x hx => h x (List.mem_cons_of_mem b hx))]

lemma update_by_id_of_mem {α : Type} (idf : α → Nat) (a : α) (l : List α)
    (hnd : (l.map idf).Nodup) (ha : a ∈ l) :
    (l.map fun x => if idf x == idf a then a else x) = l := by
  induction l with
  | nil => cases ha
  | cons b t ih =>
    simp only [List.map_cons, List.nodup_cons] at hnd
    simp only [List.map_cons]
    rcases List.mem_cons.mp ha with rfl | ha'
    · rw [if_pos (by simp)]
      rw [update_by_id_eq_self idf a t
        (fun x hx hxe => hnd.1 (hxe ▸ List.mem_map_of_mem idf hx))]
    · have hne : idf b ≠ idf a := by
        intro he
        exact hnd.1 (he ▸ List.mem_map_of_mem idf ha')
      rw [if_neg (by simp only [beq_iff_eq]; exact hne), ih hnd.2 ha']

lemma mem_update_by_id {α : Type} (idf : α → Nat) (a x : α) (l : List α)
    (hx : x ∈ l.map fun y => if idf y == idf a then a else y) :
    x = a ∨ (x ∈ l ∧ idf x ≠ idf a) := by
  rcases List.mem_map.mp hx with ⟨y, hy, hyx⟩
  by_cases h : idf y = idf a
  · left
    rw [← hyx, if_pos (by simp only [beq_iff_eq]; exact h)]
  · right
    rw [← hyx, if_neg (by simp only [beq_iff_eq]; exact h)]
    exact ⟨hy, h⟩

lemma find?_update_by_id {α : Type} (idf : α → Nat) (a : α) (l : List α)
    (h : ∃ x ∈ l, idf x = idf a) :
    (l.map fun x => if idf x == idf a then a else x).find? (fun x => idf x == idf a)
      = some a := by
  induction l with
  | nil => simp at h
  | cons b t ih =>
    simp only [List.map_cons]
    by_cases hb : idf b = idf a
    · rw [if_pos (by simp only [beq_iff_eq]; exact hb)]
      exact List.find?_cons_of_pos _ (by simp)
    · rw [if_neg (by simp only [beq_iff_eq]; exact hb)]
      rw [List.find?_cons_of_neg _ (by simp only [beq_iff_eq]; exact hb)]
      apply ih
      rcases h with ⟨x, hx, hxe⟩
      rcases List.mem_cons.mp hx with rfl | hx'
      · exact absurd hxe hb
      · exact ⟨x, hx', hxe⟩

lemma update_by_id_twice {α : Type} (idf : α → Nat) (a b : α) (l : List α)
    (hab : idf a = idf b) :
    ((l.map fun x => if idf x == idf a then a else x).map
        fun x => if idf x == idf b then b else x)
      = l.map fun x => if idf x == idf b then b else x := by
  rw [List.map_map]
  apply List.map_congr_left
  intro x _
  by_cases h : idf x = idf a
  · simp only [Function.comp_apply, if_pos (show (idf x == idf a) = true by simp [h]),
      if_pos (show (idf a == idf b) = true by simp [hab]),
      if_pos (show (idf x == idf b) = true by simp [h, hab])]
  · have h' : idf x ≠ idf b := fun he => h (hab ▸ he)
    simp only [Function.comp_apply, if_neg (show ¬(idf x == idf a) = true by simp [h]),
      if_neg (show ¬(idf x == idf b) = true by simp [h'])]

/-!  Lemmas about `bookedCount`. -/

lemma bookedCount_cons (t : Token) (l : List Token) (sid : Nat) :
    bookedCount (t :: l) sid =
      (if t.slotId == sid && t.status == TokenStatus.BOOKED then 1 else 0)
        + bookedCount l sid := by
  simp only [bookedCount, List.filter_cons]
  split
  · simp [Nat.add_comm]
  · simp

lemma bookedCount_append (l₁ l₂ : List Token) (sid : Nat) :
    bookedCount (l₁ ++ l₂) sid = bookedCount l₁ sid + bookedCount l₂ sid := by
  simp [bookedCount, List.filter_append]

lemma bookedCount_pos (l : List Token) (sid : Nat) (t : Token) (ht : t ∈ l)
    (hs : t.slotId = sid) (hb : t.status = TokenStatus.BOOKED) :
    1 ≤ bookedCount l sid := by
  have hmem : t ∈ l.filter (fun t => t.slotId == sid && t.status == TokenStatus.BOOKED) :=
    List.mem_filter.mpr ⟨ht, by simp [hs, hb]⟩
  exact List.length_pos_of_mem hmem

lemma bookedCount_update (l : List Token) (i : Nat)
    (hnd : (l.map Token.id).Nodup) (t : Token)
    (hfind : l.find? (fun x => x.id == i) = some t) (t' : Token) (hid : t'.id = i)
    (sid : Nat) :
    bookedCount (l.map fun x => if x.id == t'.id then t' else x) sid
        + (if t.slotId == sid && t.status == TokenStatus.BOOKED then 1 else 0)
      = bookedCount l sid
        + (if t'.slotId == sid && t'.status == TokenStatus.BOOKED then 1 else 0) := by
  induction l with
  | nil => simp at hfind
  | cons b rest ih =>
    simp only [List.map_cons, List.nodup_cons] at hnd
    by_cases hb : b.id = i
    · rw [List.find?_cons_of_pos _ (by simp [hb])] at hfind
      injection hfind with hbt
      subst hbt
      simp only [List.map_cons]
      rw [if_pos (show (b.id == t'.id) = true by simp [hid, hb])]
      rw [show (rest.map fun x => if x.id == t'.id then t' else x) = rest from
        update_by_id_eq_self Token.id t' rest
          (fun x hx hxe => hnd.1 (by
            rw [hid, ← hb] at hxe
            exact hxe ▸ List.mem_map_of_mem Token.id hx))]
      rw [bookedCount_cons, bookedCount_cons]
      omega
    · rw [List.find?_cons_of_neg _ (by simp [hb])] at hfind
      simp only [List.map_cons]
      rw [if_neg (show ¬(b.id == t'.id) = true by simp [hid, hb])]
      rw [bookedCount_cons, bookedCount_cons]
      have := ih hnd.2 hfind
      omega

lemma bookToken_ok_inv {db : DB} {r : BookTokenRequest} {now : Int}
    {resp : BookTokenResponse} {db' : DB}
    (h : bookToken db r now = .ok (resp, db')) :
    ∃ s, findContainingSlot db.slots r.doctorId r.slotTime = some s ∧
      s.currentCount + 1 ≤ s.maxCapacity ∧
      resp.token = ⟨db.nextTokenId, s.id, strTrim r.patientName, r.type,
        TokenStatus.BOOKED, now⟩ ∧
      resp.slot = bookResponseSlotView { s with currentCount := s.currentCount + 1 } ∧
      db' = { db with
                tokens := db.tokens ++
                  [⟨db.nextTokenId, s.id, strTrim r.patientName, r.type,
                    TokenStatus.BOOKED, now⟩]
                slots := updateSlotList db.slots { s with currentCount := s.currentCount + 1 }
                nextTokenId := db.nextTokenId + 1 } := by
  simp only [bookToken] at h
  split at h
  · exact absurd h (by simp)
  split at h
  · exact absurd h (by simp)
  next d hd =>
  split at h
  · exact absurd h (by simp)
  next s hs =>
  split at h
  · exact absurd h (by simp)
  split at h
  · exact absurd h (by simp)
  next hname =>
  split at h
  · exact absurd h (by simp)
  next hcount =>
  have hcap : s.currentCount + 1 ≤ s.maxCapacity := by
    have h1 : slotCountValid { s with currentCount := s.currentCount + 1 } = true :=
      eq_true_of_ne_false hcount
    simpa [slotCountValid] using h1
  simp only [Except.ok.injEq, Prod.mk.injEq] at h
  obtain ⟨hresp, hdb⟩ := h
  subst hresp
  subst hdb
  exact ⟨s, hs, hcap, rfl, rfl, rfl⟩

lemma cancelToken_ok_inv {db : DB} {i : Nat} {resp : CancelTokenResponse} {db' : DB}
    (h : cancelToken db i = .ok (resp, db')) :
    ∃ t, tokenById db i = some t ∧ t.status ≠ TokenStatus.CANCELLED ∧
      t.status ≠ TokenStatus.COMPLETED ∧
      resp = ⟨true, "Token cancelled successfully", ⟨t.id, TokenStatus.CANCELLED⟩⟩ ∧
      ∃ s, slotById db t.slotId = some s ∧
        ((0 < s.currentCount ∧ s.currentCount - 1 ≤ s.maxCapacity ∧
          db' = { db with
                    tokens := updateTokenList db.tokens { t with status := TokenStatus.CANCELLED }
                    slots := updateSlotList db.slots { s with currentCount := s.currentCount - 1 } }) ∨
         (s.currentCount = 0 ∧
          db' = { db with
                    tokens := updateTokenList db.tokens { t with status := TokenStatus.CANCELLED } })) := by
  simp only [cancelToken] at h
  split at h
  · exact absurd h (by simp)
  next t ht =>
  split at h
  · exact absurd h (by simp)
  next hnc =>
  split at h
  · exact absurd h (by simp)
  next hncc =>
  split at h
  · exact absurd h (by simp)
  next s hs =>
  split at h
  · split at h
    · exact absurd h (by simp)
    next hcv =>
    next hpos =>
    have hle : s.currentCount - 1 ≤ s.maxCapacity := by
      have h1 : slotCountValid { s with currentCount := s.currentCount - 1 } = true :=
        eq_true_of_ne_false hcv
      simpa [slotCountValid] using h1
    simp only [Except.ok.injEq, Prod.mk.injEq] at h
    obtain ⟨hresp, hdb⟩ := h
    subst hresp
    subst hdb
    exact ⟨t, ht, hnc, hncc, rfl, s, hs, Or.inl ⟨hpos, hle, rfl⟩⟩
  next hzero =>
  simp only [Except.ok.injEq, Prod.mk.injEq] at h
  obtain ⟨hresp, hdb⟩ := h
  subst hresp
  subst hdb
  exact ⟨t, ht, hnc, hncc, rfl, s, hs, Or.inr ⟨by omega, rfl⟩⟩

lemma bookToken_slotFull {db : DB} {r : BookTokenRequest} {now : Int} {d : Doctor} {s : Slot}
    (h1 : r.patientName ≠ "") (hd : doctorById db r.doctorId = some d)
    (hs : findContainingSlot db.slots r.doctorId r.slotTime = some s)
    (hfull : s.maxCapacity ≤ s.currentCount) (hne : r.type ≠ TokenType.EMERGENCY) :
    bookToken db r now = .error (slotFullError s.currentCount s.maxCapacity) := by
  simp only [bookToken, if_neg h1, hd, hs]
  rw [if_pos ⟨hfull, hne⟩]

lemma bookToken_success {db : DB} {r : BookTokenRequest} {now : Int} {d : Doctor} {s : Slot}
    (h1 : r.patientName ≠ "") (hd : doctorById db r.doctorId = some d)
    (hs : findContainingSlot db.slots r.doctorId r.slotTime = some s)
    (hnotfull : ¬(s.maxCapacity ≤ s.currentCount ∧ r.type ≠ TokenType.EMERGENCY))
    (hname : tokenNameValid (strTrim r.patientName) = true)
    (hcap : s.currentCount + 1 ≤ s.maxCapacity) :
    ∃ resp, bookToken db r now = .ok
      (resp, { db with
                 tokens := db.tokens ++
                   [⟨db.nextTokenId, s.id, strTrim r.patientName, r.type,
                     TokenStatus.BOOKED, now⟩]
                 slots := updateSlotList db.slots { s with currentCount := s.currentCount + 1 }
                 nextTokenId := db.nextTokenId + 1 }) := by
  refine ⟨{ success := true
            message :=
              if r.type = TokenType.EMERGENCY ∧ s.maxCapacity ≤ s.currentCount then
                "Emergency token booked (exceeding normal capacity)"
              else
                "Token booked successfully"
            token := ⟨db.nextTokenId, s.id, strTrim r.patientName, r.type,
              TokenStatus.BOOKED, now⟩
            slot := bookResponseSlotView { s with currentCount := s.currentCount + 1 } }, ?_⟩
  simp only [bookToken, if_neg h1, hd, hs]
  rw [if_neg hnotfull, if_neg (by simp [hname]), if_neg (by simp [slotCountValid, hcap])]
  rfl

lemma bookToken_found_error_status {db : DB} {r : BookTokenRequest} {now : Int}
    {d : Doctor} {s : Slot} {e : AppError}
    (h1 : r.patientName ≠ "") (hd : doctorById db r.doctorId = some d)
    (hs : findContainingSlot db.slots r.doctorId r.slotTime = some s)
    (he : bookToken db r now = .error e) :
    e.statusCode = 409 ∨ e.statusCode = 500 := by
  simp only [bookToken, if_neg h1, hd, hs] at he
  split at he
  · injection he with hX
    subst hX
    left
    rfl
  split at he
  · injection he with hX
    subst hX
    right
    rfl
  split at he
  · injection he with hX
    subst hX
    right
    rfl
  · exact absurd he (by simp)

lemma bookedCount_cancelUpdate (db : DB) (i : Nat) (hnd : tokenIdsNodup db) (t : Token)
    (ht : tokenById db i = some t) (sid : Nat) :
    bookedCount (updateTokenList db.tokens { t with status := TokenStatus.CANCELLED }) sid
        + (if t.slotId == sid && t.status == TokenStatus.BOOKED then 1 else 0)
      = bookedCount db.tokens sid := by
  have htid : t.id = i := by simpa using List.find?_some ht
  have h := bookedCount_update db.tokens i hnd t ht
    { t with status := TokenStatus.CANCELLED } (by simpa using htid) sid
  simpa [updateTokenList] using h

lemma bookedCount_singleton (t : Token) (sid : Nat) :
    bookedCount [t] sid = if t.slotId == sid && t.status == TokenStatus.BOOKED then 1 else 0 := by
  simp only [bookedCount, List.filter_cons, List.filter_nil]
  split <;> simp

/-- C10: every persisted slot write runs the SlotSchema validators
(`0 ≤ currentCount ≤ maxCapacity`), so starting from any state whose slots
respect the capacity bound, the state after any `bookToken` or `cancelToken`
call — successful or aborted — still respects it: occupancy can never be
committed above capacity. -/
theorem capacityInvariantPreserved (db : DB) (r : BookTokenRequest) (now : Int) (i : Nat)
    (h : capacityInvariant db) :
    capacityInvariant (bookEffect db r now) ∧ capacityInvariant (cancelEffect db i) := by
  constructor
  · unfold bookEffect
    cases hb : bookToken db r now with
    | error e => exact h
    | ok p =>
      obtain ⟨resp, db'⟩ := p
      obtain ⟨s, hs, hcap, -, -, hdb⟩ := bookToken_ok_inv hb
      subst hdb
      intro x hx
      rcases mem_update_by_id Slot.id _ x db.slots hx with rfl | ⟨hmem, -⟩
      · simpa using hcap
      · exact h x hmem
  · unfold cancelEffect
    cases hb : cancelToken db i with
    | error e => exact h
    | ok p =>
      obtain ⟨resp, db'⟩ := p
      obtain ⟨t, ht, hnc, hncc, -, s, hsl, hbr⟩ := cancelToken_ok_inv hb
      rcases hbr with ⟨hgt, hle, hdb⟩ | ⟨hzero, hdb⟩
      · subst hdb
        intro x hx
        rcases mem_update_by_id Slot.id _ x db.slots hx with rfl | ⟨hmem, -⟩
        · simpa using hle
        · exact h x hmem
      · subst hdb
        intro x hx
        exact h x hx

/-- C3 (amended): in any state with pairwise-distinct token ids and no
`NO_SHOW` token, if every slot's `currentCount` equals the number of `BOOKED`
tokens referencing it, then after any `bookToken` or `cancelToken` call —
successful or aborted — the equality still holds.  (Unamended, the claim
fails: cancelling a `NO_SHOW` token also decrements occupancy, see the
counterexample.) -/
theorem bookCancelPreserveConsistency (db : DB) (r : BookTokenRequest) (now : Int) (i : Nat)
    (hnd : tokenIdsNodup db) (hns : noNoShow db) (hc : Consistent db) :
    Consistent (bookEffect db r now) ∧ Consistent (cancelEffect db i) := by
  constructor
  · unfold bookEffect
    cases hb : bookToken db r now with
    | error e => exact hc
    | ok p =>
      obtain ⟨resp, db'⟩ := p
      obtain ⟨s, hs, hcap, -, -, hdb⟩ := bookToken_ok_inv hb
      subst hdb
      have hsmem : s ∈ db.slots := List.mem_of_find?_eq_some hs
      intro x hx
      rcases mem_update_by_id Slot.id _ x db.slots hx with rfl | ⟨hmem, hnex⟩
      · have hself := hc s hsmem
        simp only [bookedCount_append, bookedCount_singleton]
        simp only [beq_self_eq_true, Bool.and_self, if_pos]
        simp
        omega
      · have hx' := hc x hmem
        have hnex' : x.id ≠ s.id := by simpa using hnex
        have h0 : (s.id == x.id) = false := by simp [Ne.symm hnex']
        simp only [bookedCount_append, bookedCount_singleton]
        simp [h0, hx']
  · unfold cancelEffect
    cases hb : cancelToken db i with
    | error e => exact hc
    | ok p =>
      obtain ⟨resp, db'⟩ := p
      obtain ⟨t, ht, hnc, hncc, -, s, hsl, hbr⟩ := cancelToken_ok_inv hb
      have ht' : db.tokens.find? (fun x => x.id == i) = some t := ht
      have hsl' : db.slots.find? (fun x => x.id == t.slotId) = some s := hsl
      have htmem : t ∈ db.tokens := List.mem_of_find?_eq_some ht'
      have hsid := List.find?_some hsl'
      have hsid' : s.id = t.slotId := by simpa using hsid
      have hsmem : s ∈ db.slots := List.mem_of_find?_eq_some hsl'
      have hbooked : t.status = TokenStatus.BOOKED := by
        cases hstat : t.status
        · rfl
        · exact absurd hstat hnc
        · exact absurd hstat hncc
        · exact absurd hstat (hns t htmem)
      have hpos : 1 ≤ s.currentCount := by
        rw [hc s hsmem]
        exact bookedCount_pos db.tokens s.id t htmem hsid'.symm hbooked
      rcases hbr with ⟨hgt, hle, hdb⟩ | ⟨hzero, hdb⟩
      · subst hdb
        intro x hx
        rcases mem_update_by_id Slot.id _ x db.slots hx with rfl | ⟨hmem, hnex⟩
        · have hcs := hc s hsmem
          have hupd := bookedCount_cancelUpdate db i hnd t ht s.id
          rw [show (t.slotId == s.id && t.status == TokenStatus.BOOKED) = true by
            simp [← hsid', hbooked]] at hupd
          simp only [if_pos] at hupd
          simp
          omega
        · have hx' := hc x hmem
          have hnex' : x.id ≠ s.id := by simpa using hnex
          have hupd := bookedCount_cancelUpdate db i hnd t ht x.id
          rw [show (t.slotId == x.id && t.status == TokenStatus.BOOKED) = false by
            rw [← hsid']
            simp [Ne.symm hnex']] at hupd
          simp at hupd
          simp
          omega
      · exact absurd hzero (by omega)

/-- Witness for C3 at a concrete consistent state: booking and cancelling
both preserve the occupancy invariant. -/
theorem bookCancelPreserveConsistencyWitness :
    Consistent (bookEffect openDB walkInReq 0) ∧ Consistent (cancelEffect openDB 1) :=
  bookCancelPreserveConsistency openDB walkInReq 0 1 (by decide) (by decide) (by decide)

/-- C3 counterexample: a consistent state containing a `NO_SHOW` token, on
which cancelling that token succeeds, decrements occupancy, and leaves the
slot's `currentCount` (0) below the number of its `BOOKED` tokens (1) — the
claim as stated is false. -/
theorem noShowCancelBreaksConsistency :
    Consistent noShowDB ∧ cancelSucceeds noShowDB 2 = true ∧
    ¬ Consistent (cancelEffect noShowDB 2) := by decide

/-- Witness for C10 at a concrete state: even an emergency booking attempt
against the full slot leaves every slot within capacity. -/
theorem capacityInvariantPreservedWitness :
    capacityInvariant (bookEffect fullDB emergencyReq 0) ∧
    capacityInvariant (cancelEffect fullDB 1) :=
  capacityInvariantPreserved fullDB emergencyReq 0 1 (by decide)

/-- C1: evaluating the code on the claim's own scenario — an `EMERGENCY`
book call against a full slot (capacity 10, occupancy 10) — does not
succeed: the incremented `currentCount` (11) fails the SlotSchema validator
'Current count cannot exceed max capacity', the transaction aborts, and the
caller gets the generic 500 "Failed to book token"; the state is unchanged.
The claim (and the code's own unreachable success branch) says the call
succeeds with occupancy 11. -/
theorem emergencyOverCapacityBookingFails :
    slotCountValid { fullSlot with currentCount := fullSlot.currentCount + 1 } = false ∧
    bookToken fullDB emergencyReq 0 = .error bookFailedError ∧
    bookFailedError.statusCode = 500 ∧
    bookEffect fullDB emergencyReq 0 = fullDB := by decide

/-- C2: whenever the resolved slot is at or above capacity and the request
class is not `EMERGENCY`, `bookToken` fails with the 409 `Slot is full`
error, creating no token and mutating no slot. -/
theorem bookRejectsNonEmergencyWhenFull (db : DB) (r : BookTokenRequest) (now : Int)
    (d : Doctor) (s : Slot) (h1 : r.patientName ≠ "")
    (hd : doctorById db r.doctorId = some d)
    (hs : findContainingSlot db.slots r.doctorId r.slotTime = some s)
    (hfull : s.maxCapacity ≤ s.currentCount) (hne : r.type ≠ TokenType.EMERGENCY) :
    bookToken db r now = .error (slotFullError s.currentCount s.maxCapacity) ∧
    (slotFullError s.currentCount s.maxCapacity).statusCode = 409 ∧
    bookEffect db r now = db := by
  have hb := @bookToken_slotFull db r now d s h1 hd hs hfull hne
  refine ⟨hb, rfl, ?_⟩
  unfold bookEffect
  rw [hb]

/-- Witness for C2: a walk-in booking against the full slot is rejected with
the 409 error and the state is unchanged. -/
theorem bookRejectsNonEmergencyWhenFullWitness :
    bookToken fullDB walkInReq 0 = .error (slotFullError 10 10) ∧
    (slotFullError 10 10).statusCode = 409 ∧
    bookEffect fullDB walkInReq 0 = fullDB :=
  bookRejectsNonEmergencyWhenFull fullDB walkInReq 0 exDoctor fullSlot
    (by decide) (by decide) (by decide) (by decide) (by decide)

/-- C8 (amended): for every slot within its capacity bound (which the schema
validator guarantees for persisted slots), the doctor-slots query view, the
booking-response snapshot and the model virtuals all agree with the spec's
derived values `remainingCapacity = max(0, maxCapacity - currentOccupancy)`
and `isAvailable = currentOccupancy < maxCapacity`.  (Unamended the claim
fails: the virtual `remainingSlots` omits the `max(0, ·)` floor, see the
counterexample.) -/
theorem queryViewsDeriveAvailability (s : Slot) (h : s.currentCount ≤ s.maxCapacity) :
    (slotWithAvailability s).remainingSlots = specRemainingCapacity s ∧
    (slotWithAvailability s).isAvailable = specIsAvailable s ∧
    (bookResponseSlotView s).remainingSlots = specRemainingCapacity s ∧
    s.isAvailable = specIsAvailable s ∧
    s.remainingSlots = specRemainingCapacity s := by
  refine ⟨rfl, rfl, rfl, rfl, ?_⟩
  simp only [Slot.remainingSlots, specRemainingCapacity]
  rw [max_eq_right]
  omega

/-- Witness for C8 at the full slot (occupancy 10 of 10): every view agrees
with the spec formulas. -/
theorem queryViewsDeriveAvailabilityWitness :
    (slotWithAvailability fullSlot).remainingSlots = specRemainingCapacity fullSlot ∧
    (slotWithAvailability fullSlot).isAvailable = specIsAvailable fullSlot ∧
    (bookResponseSlotView fullSlot).remainingSlots = specRemainingCapacity fullSlot ∧
    fullSlot.isAvailable = specIsAvailable fullSlot ∧
    fullSlot.remainingSlots = specRemainingCapacity fullSlot :=
  queryViewsDeriveAvailability fullSlot (by decide)

/-- C8 counterexample: on a slot with occupancy 11 of 10 the SlotSchema
virtual `remainingSlots` returns `-1`, not `max(0, maxCapacity -
currentOccupancy) = 0` — the claim is false for the model virtual. -/
theorem virtualRemainingSlotsLacksFloor :
    overSlot.maxCapacity < overSlot.currentCount ∧
    overSlot.remainingSlots = -1 ∧
    specRemainingCapacity overSlot = 0 ∧
    overSlot.remainingSlots ≠ specRemainingCapacity overSlot := by decide

/-- C9 counterexample: `AlreadyCancelled` and `CannotCancelCompleted` are
distinct taxonomy outcomes, yet the surfaced `AppError`s carry the same
status code (400) and differ only in their message text — callers cannot
branch on them without string-matching. -/
theorem terminalCancelErrorsShareStatusCode :
    Outcome.AlreadyCancelled ≠ Outcome.CannotCancelCompleted ∧
    outcomeStatusCode Outcome.AlreadyCancelled
      = outcomeStatusCode Outcome.CannotCancelCompleted ∧
    surfacedError Outcome.AlreadyCancelled ≠ surfacedError Outcome.CannotCancelCompleted := by
  decide

/-- C9 (amended): outcomes are surfaced as `AppError`s whose only
message-independent content is the HTTP status code; the status code
separates every pair of taxonomy outcomes except `SlotNotFound` vs
`BookingNotFound` (both 404) and `AlreadyCancelled` vs
`CannotCancelCompleted` (both 400), which differ only by message text. -/
theorem outcomeStatusCodeCharacterization :
    ∀ o₁ o₂ : Outcome, outcomeStatusCode o₁ = outcomeStatusCode o₂ ↔
      (o₁ = o₂ ∨
       (o₁ = Outcome.SlotNotFound ∧ o₂ = Outcome.BookingNotFound) ∨
       (o₁ = Outcome.BookingNotFound ∧ o₂ = Outcome.SlotNotFound) ∨
       (o₁ = Outcome.AlreadyCancelled ∧ o₂ = Outcome.CannotCancelCompleted) ∨
       (o₁ = Outcome.CannotCancelCompleted ∧ o₂ = Outcome.AlreadyCancelled)) := by
  intro o₁ o₂
  cases o₁ <;> cases o₂ <;> decide

lemma tokenById_updateCancelled (db : DB) (i : Nat) (t : Token)
    (ht : tokenById db i = some t) :
    (updateTokenList db.tokens { t with status := TokenStatus.CANCELLED }).find?
      (fun x => x.id == i) = some { t with status := TokenStatus.CANCELLED } := by
  have ht' : db.tokens.find? (fun x => x.id == i) = some t := ht
  have htid : t.id = i := by simpa using List.find?_some ht'
  have htmem : t ∈ db.tokens := List.mem_of_find?_eq_some ht'
  have key := find?_update_by_id Token.id { t with status := TokenStatus.CANCELLED }
    db.tokens ⟨t, htmem, by simp⟩
  rw [← htid]
  simpa [updateTokenList] using key

lemma slotById_updateCount (db : DB) (sid : Nat) (s : Slot)
    (hsl : slotById db sid = some s) (c : Nat) :
    (updateSlotList db.slots { s with currentCount := c }).find?
      (fun x => x.id == sid) = some { s with currentCount := c } := by
  have hsl' : db.slots.find? (fun x => x.id == sid) = some s := hsl
  have hsid : s.id = sid := by simpa using List.find?_some hsl'
  have hsmem : s ∈ db.slots := List.mem_of_find?_eq_some hsl'
  have key := find?_update_by_id Slot.id { s with currentCount := c } db.slots
    ⟨s, hsmem, by simp⟩
  rw [← hsid]
  simpa [updateSlotList] using key

/-- C7: given an existing provider and a non-empty patient name, `bookToken`
fails with the slot-not-found 404 error exactly when no slot of that
provider contains the requested instant under half-open containment
(`startTime ≤ instant < endTime`, the `findOne` filter); on that failure
nothing is mutated. -/
theorem slotNotFoundIffNoContainingSlot (db : DB) (r : BookTokenRequest) (now : Int)
    (d : Doctor) (h1 : r.patientName ≠ "") (hd : doctorById db r.doctorId = some d) :
    (bookToken db r now = .error (slotNotFoundError d.name) ↔
      db.slots.all (fun s => ! containsInstant s r.doctorId r.slotTime) = true) ∧
    (bookToken db r now = .error (slotNotFoundError d.name) →
      bookEffect db r now = db) := by
  have hnone : db.slots.all (fun s => ! containsInstant s r.doctorId r.slotTime) = true ↔
      findContainingSlot db.slots r.doctorId r.slotTime = none := by
    rw [List.all_eq_true]
    rw [show findContainingSlot db.slots r.doctorId r.slotTime
      = db.slots.find? (fun s => containsInstant s r.doctorId r.slotTime) from rfl]
    rw [List.find?_eq_none]
    constructor
    · intro h x hx
      simpa using h x hx
    · intro h x hx
      simpa using h x hx
  constructor
  · constructor
    · intro hbook
      rw [hnone]
      cases hfs : findContainingSlot db.slots r.doctorId r.slotTime with
      | none => rfl
      | some s =>
        exfalso
        cases hres : bookToken db r now with
        | ok p =>
          rw [hres] at hbook
          exact absurd hbook (by simp)
        | error e =>
          rw [hres] at hbook
          injection hbook with he
          have hst := bookToken_found_error_status h1 hd hfs hres
          rw [he] at hst
          simp [slotNotFoundError] at hst
    · intro hall
      rw [hnone] at hall
      simp only [bookToken, if_neg h1, hd, hall]
  · intro hbook
    unfold bookEffect
    rw [hbook]

/-- Witness for C7: the example doctor with a single `[0, 60)` slot and a
request at instant 100: no slot contains the instant, and indeed the call
fails with the slot-not-found error and changes nothing. -/
theorem slotNotFoundIffNoContainingSlotWitness :
    (bookToken fullDB lateReq 0 = .error (slotNotFoundError exDoctor.name) ↔
      fullDB.slots.all (fun s => ! containsInstant s lateReq.doctorId lateReq.slotTime) = true) ∧
    (bookToken fullDB lateReq 0 = .error (slotNotFoundError exDoctor.name) →
      bookEffect fullDB lateReq 0 = fullDB) :=
  slotNotFoundIffNoContainingSlot fullDB lateReq 0 exDoctor (by decide) (by decide)

/-- C6: cancellation failures are exhaustive and effect-free — a nonexistent
booking id yields the 404 `Token not found` error, a `CANCELLED` booking the
400 `already cancelled` error, a `COMPLETED` booking the 400 `cannot cancel`
error, each leaving the state unchanged; and after a successful cancel, a
second cancel of the same booking fails with `already cancelled`, changes
nothing, and the referenced slot's occupancy has decreased by exactly one
(floored at zero) in total. -/
theorem cancelFailureTaxonomyAndIdempotence (db : DB) (i₁ i₂ i₃ i₄ : Nat)
    (h1 : tokenById db i₁ = none)
    (h2 : (tokenById db i₂).map Token.status = some TokenStatus.CANCELLED)
    (h3 : (tokenById db i₃).map Token.status = some TokenStatus.COMPLETED)
    (h4 : cancelSucceeds db i₄ = true) :
    cancelToken db i₁ = .error tokenNotFoundError ∧ cancelEffect db i₁ = db ∧
    cancelToken db i₂ = .error alreadyCancelledError ∧ cancelEffect db i₂ = db ∧
    cancelToken db i₃ = .error cannotCancelCompletedError ∧ cancelEffect db i₃ = db ∧
    cancelToken (cancelEffect db i₄) i₄ = .error alreadyCancelledError ∧
    cancelEffect (cancelEffect db i₄) i₄ = cancelEffect db i₄ ∧
    (slotOfToken (cancelEffect db i₄) i₄).map Slot.currentCount
      = (slotOfToken db i₄).map (fun s => s.currentCount - 1) := by
  have hA : cancelToken db i₁ = .error tokenNotFoundError := by
    simp only [cancelToken, h1]
  have hAe : cancelEffect db i₁ = db := by
    unfold cancelEffect
    rw [hA]
  obtain ⟨t₂, ht₂, hst₂⟩ := Option.map_eq_some'.mp h2
  have hB : cancelToken db i₂ = .error alreadyCancelledError := by
    simp only [cancelToken, ht₂]
    rw [if_pos hst₂]
  have hBe : cancelEffect db i₂ = db := by
    unfold cancelEffect
    rw [hB]
  obtain ⟨t₃, ht₃, hst₃⟩ := Option.map_eq_some'.mp h3
  have hC : cancelToken db i₃ = .error cannotCancelCompletedError := by
    simp only [cancelToken, ht₃]
    rw [if_neg (by simp [hst₃]), if_pos hst₃]
  have hCe : cancelEffect db i₃ = db := by
    unfold cancelEffect
    rw [hC]
  cases hres : cancelToken db i₄ with
  | error e => simp [cancelSucceeds, hres] at h4
  | ok p =>
    obtain ⟨resp, db1⟩ := p
    have heff : cancelEffect db i₄ = db1 := by
      unfold cancelEffect
      rw [hres]
    obtain ⟨t, ht, hnc, hncc, hresp, s, hsl, hbr⟩ := cancelToken_ok_inv hres
    have hf1 : tokenById db1 i₄ = some { t with status := TokenStatus.CANCELLED } := by
      rcases hbr with ⟨-, -, hdb⟩ | ⟨-, hdb⟩ <;> subst hdb <;>
        exact tokenById_updateCancelled db i₄ t ht
    have hD : cancelToken db1 i₄ = .error alreadyCancelledError := by
      simp only [cancelToken, hf1]
      simp
    have hDe : cancelEffect db1 i₄ = db1 := by
      unfold cancelEffect
      rw [hD]
    have hcount : (slotOfToken db1 i₄).map Slot.currentCount
        = (slotOfToken db i₄).map (fun s => s.currentCount - 1) := by
      have hrhs : slotOfToken db i₄ = some s := by
        simp only [slotOfToken, ht, Option.bind_eq_bind, Option.some_bind]
        exact hsl
      rcases hbr with ⟨hgt, hle, hdb⟩ | ⟨hzero, hdb⟩
      · have hlhs : slotOfToken db1 i₄ = some { s with currentCount := s.currentCount - 1 } := by
          simp only [slotOfToken, hf1, Option.bind_eq_bind, Option.some_bind]
          subst hdb
          exact slotById_updateCount db t.slotId s hsl (s.currentCount - 1)
        rw [hlhs, hrhs]
        simp
      · have hlhs : slotOfToken db1 i₄ = some s := by
          simp only [slotOfToken, hf1, Option.bind_eq_bind, Option.some_bind]
          subst hdb
          exact hsl
        rw [hlhs, hrhs]
        simp [hzero]
    rw [heff]
    exact ⟨hA, hAe, hB, hBe, hC, hCe, hD, hDe, hcount⟩

/-- Witness for C6 on a concrete state holding a cancelled, a completed and
a booked token: all four scenarios behave as stated. -/
theorem cancelFailureTaxonomyAndIdempotenceWitness :
    cancelToken cancelFixtureDB 99 = .error tokenNotFoundError ∧
    cancelEffect cancelFixtureDB 99 = cancelFixtureDB ∧
    cancelToken cancelFixtureDB 1 = .error alreadyCancelledError ∧
    cancelEffect cancelFixtureDB 1 = cancelFixtureDB ∧
    cancelToken cancelFixtureDB 2 = .error cannotCancelCompletedError ∧
    cancelEffect cancelFixtureDB 2 = cancelFixtureDB ∧
    cancelToken (cancelEffect cancelFixtureDB 3) 3 = .error alreadyCancelledError ∧
    cancelEffect (cancelEffect cancelFixtureDB 3) 3 = cancelEffect cancelFixtureDB 3 ∧
    (slotOfToken (cancelEffect cancelFixtureDB 3) 3).map Slot.currentCount
      = (slotOfToken cancelFixtureDB 3).map (fun s => s.currentCount - 1) :=
  cancelFailureTaxonomyAndIdempotence cancelFixtureDB 99 1 2 3
    (by decide) (by decide) (by decide) (by decide)

lemma updateSlotList_twice (l : List Slot) (a b : Slot) (hab : a.id = b.id) :
    updateSlotList (updateSlotList l a) b = updateSlotList l b := by
  have h := update_by_id_twice Slot.id a b l hab
  simpa [updateSlotList] using h

lemma updateSlotList_mem_self (l : List Slot) (s : Slot)
    (hnd : (l.map Slot.id).Nodup) (hs : s ∈ l) :
    updateSlotList l s = l := by
  have h := update_by_id_of_mem Slot.id s l hnd hs
  simpa [updateSlotList] using h

/-- C5: whenever a `bookToken` call succeeds, the returned booking id is the
freshly created token's id, and immediately cancelling it succeeds and
restores the slot collection — in particular every slot's `currentCount` —
to exactly its pre-book state. -/
theorem bookThenCancelRestoresSlots (db : DB) (r : BookTokenRequest) (now : Int)
    (resp : BookTokenResponse) (db' : DB)
    (hsnd : slotIdsNodup db) (hfresh : freshTokenIds db)
    (hok : bookToken db r now = .ok (resp, db')) :
    resp.token.id = db.nextTokenId ∧
    cancelSucceeds db' resp.token.id = true ∧
    (cancelEffect db' resp.token.id).slots = db.slots := by
  obtain ⟨s, hs, hcap, htok, -, hdb⟩ := bookToken_ok_inv hok
  have hid : resp.token.id = db.nextTokenId := by rw [htok]
  have hsmem : s ∈ db.slots :=
    List.mem_of_find?_eq_some (hs :
      db.slots.find? (fun x => containsInstant x r.doctorId r.slotTime) = some s)
  -- the fresh token document
  set tok : Token := ⟨db.nextTokenId, s.id, strTrim r.patientName, r.type,
    TokenStatus.BOOKED, now⟩ with htokdef
  -- the post-book slot
  set sInc : Slot := { s with currentCount := s.currentCount + 1 } with hsplus
  -- the freshly booked token is found by its id in the post-book state
  have hft : tokenById db' db.nextTokenId = some tok := by
    subst hdb
    show (db.tokens ++ [tok]).find? (fun x => x.id == db.nextTokenId) = some tok
    rw [List.find?_append]
    rw [List.find?_eq_none.mpr (fun x hx => by
      simp only [beq_iff_eq]
      exact Nat.ne_of_lt (hfresh x hx))]
    simp
  -- the post-book slot is found via the token's slot reference
  have hfs : slotById db' tok.slotId = some sInc := by
    subst hdb
    show (updateSlotList db.slots sInc).find? (fun x => x.id == tok.slotId) = some sInc
    have : tok.slotId = s.id := rfl
    rw [this]
    have key := find?_update_by_id Slot.id sInc db.slots ⟨s, hsmem, by simp [hsplus]⟩
    simpa [updateSlotList, hsplus] using key
  -- evaluate the cancellation
  have hcancel : cancelToken db' db.nextTokenId = .ok
      ({ success := true, message := "Token cancelled successfully",
         token := ⟨tok.id, TokenStatus.CANCELLED⟩ },
       { db' with
           tokens := updateTokenList db'.tokens { tok with status := TokenStatus.CANCELLED }
           slots := updateSlotList db'.slots { sInc with currentCount := sInc.currentCount - 1 } }) := by
    simp only [cancelToken, hft, hfs]
    rw [if_neg (by simp [htokdef]), if_neg (by simp [htokdef]),
      if_pos (show 0 < sInc.currentCount by simp [hsplus]),
      if_neg (by simp [slotCountValid, hsplus]; omega)]
  have hsucc : cancelSucceeds db' db.nextTokenId = true := by
    simp only [cancelSucceeds, hcancel]
  have hslots : (cancelEffect db' db.nextTokenId).slots = db.slots := by
    unfold cancelEffect
    rw [hcancel]
    show updateSlotList db'.slots { sInc with currentCount := sInc.currentCount - 1 } = db.slots
    have heq : ({ sInc with currentCount := sInc.currentCount - 1 } : Slot) = s := by
      simp [hsplus]
    rw [heq]
    subst hdb
    show updateSlotList (updateSlotList db.slots sInc) s = db.slots
    rw [updateSlotList_twice db.slots sInc s (by simp [hsplus])]
    exact updateSlotList_mem_self db.slots s hsnd hsmem
  rw [hid]
  exact ⟨rfl, hsucc, hslots⟩

/-- Witness for C5: booking into the example open slot (occupancy 3 → 4) and
cancelling the returned booking restores the slot collection. -/
theorem bookThenCancelRestoresSlotsWitness :
    exBookResp.token.id = openDB.nextTokenId ∧
    cancelSucceeds exBookedDB exBookResp.token.id = true ∧
    (cancelEffect exBookedDB exBookResp.token.id).slots = openDB.slots :=
  bookThenCancelRestoresSlots openDB walkInReq 0 exBookResp exBookedDB
    (by decide) (by decide) (by decide)

lemma runBooks_single_slot (rs : List BookTokenRequest) :
    ∀ (db : DB) (s : Slot) (now : Int),
      db.slots = [s] →
      (doctorById db s.doctorId).isSome = true →
      s.currentCount ≤ s.maxCapacity →
      (∀ r ∈ rs, r.doctorId = s.doctorId ∧ s.startTime ≤ r.slotTime ∧
        r.slotTime < s.endTime ∧ r.type ≠ TokenType.EMERGENCY ∧ r.patientName ≠ "" ∧
        tokenNameValid (strTrim r.patientName) = true) →
      (runBooks db rs now).2.1 = min rs.length (s.maxCapacity - s.currentCount) ∧
      (runBooks db rs now).2.2 = rs.length - (s.maxCapacity - s.currentCount) := by
  induction rs with
  | nil =>
    intro db s now hslots hdoc hcap hreqs
    simp [runBooks]
  | cons r rest ih =>
    intro db s now hslots hdoc hcap hreqs
    obtain ⟨hrd, ht1, ht2, hne, hnm, hnv⟩ := hreqs r (List.mem_cons_self r rest)
    have hfind : findContainingSlot db.slots r.doctorId r.slotTime = some s := by
      rw [hslots]
      show [s].find? (fun x => containsInstant x r.doctorId r.slotTime) = some s
      apply List.find?_cons_of_pos
      simp [containsInstant, hrd, ht1, ht2]
    have hdoc2 : (doctorById db r.doctorId).isSome = true := by
      rw [hrd]
      exact hdoc
    obtain ⟨d, hd⟩ := Option.isSome_iff_exists.mp hdoc2
    by_cases hfull : s.currentCount < s.maxCapacity
    · obtain ⟨resp, hb⟩ := @bookToken_success db r now d s hnm hd hfind
        (by omega) hnv (by omega)
      simp only [runBooks, hb]
      obtain ⟨hih1, hih2⟩ := ih
        { db with
            tokens := db.tokens ++
              [⟨db.nextTokenId, s.id, strTrim r.patientName, r.type,
                TokenStatus.BOOKED, now⟩]
            slots := updateSlotList db.slots { s with currentCount := s.currentCount + 1 }
            nextTokenId := db.nextTokenId + 1 }
        { s with currentCount := s.currentCount + 1 } now
        (by simp [hslots, updateSlotList])
        hdoc
        (show s.currentCount + 1 ≤ s.maxCapacity by omega)
        (fun r' hr' => hreqs r' (List.mem_cons_of_mem r hr'))
      simp only [List.length_cons]
      simp at hih1 hih2 ⊢
      omega
    · have hb := @bookToken_slotFull db r now d s hnm hd hfind (by omega) hne
      simp only [runBooks, hb, slotFullError]
      obtain ⟨hih1, hih2⟩ := ih db s now hslots hdoc hcap
        (fun r' hr' => hreqs r' (List.mem_cons_of_mem r hr'))
      simp only [List.length_cons]
      simp at hih1 hih2 ⊢
      omega

/-- C4: each `bookToken` call runs as one atomic storage transaction, so a
concurrent batch behaves as the calls in some serial order; for every order
of N valid non-emergency requests against a single slot with remaining
capacity R < N, exactly R calls succeed and the other N − R fail with the
409 `SlotFull` rejection — no lost update is possible. -/
theorem concurrentBooksAdmitExactlyRemaining (db : DB) (s : Slot)
    (rs : List BookTokenRequest) (now : Int)
    (hslots : db.slots = [s])
    (hdoc : (doctorById db s.doctorId).isSome = true)
    (hcap : s.currentCount ≤ s.maxCapacity)
    (hreqs : ∀ r ∈ rs, r.doctorId = s.doctorId ∧ s.startTime ≤ r.slotTime ∧
      r.slotTime < s.endTime ∧ r.type ≠ TokenType.EMERGENCY ∧ r.patientName ≠ "" ∧
      tokenNameValid (strTrim r.patientName) = true)
    (hR : s.maxCapacity - s.currentCount < rs.length) :
    (runBooks db rs now).2.1 = s.maxCapacity - s.currentCount ∧
    (runBooks db rs now).2.2 = rs.length - (s.maxCapacity - s.currentCount) := by
  obtain ⟨h1, h2⟩ := runBooks_single_slot rs db s now hslots hdoc hcap hreqs
  refine ⟨?_, h2⟩
  rw [h1]
  omega

/-- Witness for C4: two walk-in requests against a slot with remaining
capacity one — exactly one succeeds, exactly one is rejected with 409. -/
theorem concurrentBooksAdmitExactlyRemainingWitness :
    (runBooks nearFullDB [walkInReq, walkInReq] 0).2.1 = 1 ∧
    (runBooks nearFullDB [walkInReq, walkInReq] 0).2.2 = 1 :=
  concurrentBooksAdmitExactlyRemaining nearFullDB ⟨1, 1, 0, 60, 2, 1⟩
    [walkInReq, walkInReq] 0 (by decide) (by decide) (by decide) (by decide) (by decide)
